import Mathlib

/-!
# Verification of the outbox email scheduler core

Shallow embedding of the campaign-scheduler backend:
* the Redis-backed rate limiter (`services/rateLimiter.ts` and its
  `reachSessionLimit`-keyed variant),
* the BullMQ scheduler queue (`queue/reachinboxScheduler.ts`),
* the campaign-creation route (`routes/campaigns.ts`),
* the delivery worker (`queue/worker.ts`, `processEmailDelivery`).

JavaScript numbers on these paths are integers (epoch milliseconds,
counters), modelled as `Int`/`Nat`.  Redis counter state is a total map
from key strings to integer values (absent keys read as 0, matching
`INCR` on a missing key).  Effects (SQL updates, redis commands, queue
operations, SMTP calls) are recorded as explicit traces so that theorems
can speak about what was written, sent and rescheduled.
-/

/-- JavaScript `a || b` applied to an optional integer `a`: both
`undefined` and `0` are falsy, every other integer is truthy. -/
def jsOrInt (a : Option Int) (b : Int) : Int :=
  match a with
  | none => b
  | some v => if v = 0 then b else v

/-- JavaScript `a || b` applied to strings: the empty string is falsy. -/
def jsOrString (a b : String) : String :=
  if a = "" then b else a

/-- `String(n).padStart(2, '0')` for a natural number `n`. -/
def pad2 (n : Nat) : String :=
  if n < 10 then "0" ++ toString n else toString n

/-- Proleptic-Gregorian civil date `(year, month, day)` of a day count
since 1970-01-01 (UTC).  This models the ECMAScript `Date` accessors
`getUTCFullYear` / `getUTCMonth` / `getUTCDate` used by `getHourKey`. -/
def civilFromDays (days : Nat) : Nat × Nat × Nat :=
  let z := days + 719468
  let era := z / 146097
  let doe := z % 146097
  let yoe := (doe - doe / 1460 + doe / 36524 - doe / 146096) / 365
  let doy := doe - (365 * yoe + yoe / 4 - yoe / 100)
  let mp := (5 * doy + 2) / 153
  let d := doy - (153 * mp + 2) / 5 + 1
  let m := if mp < 10 then mp + 3 else mp - 9
  let y := era * 400 + yoe + (if m ≤ 2 then 1 else 0)
  (y, m, d)

/-- UTC hour-of-day of an epoch-millisecond instant
(`Date.getUTCHours`). -/
def utcHourOf (t : Nat) : Nat := t % 86400000 / 3600000

/-- `getHourKey` from `services/rateLimiter.ts`: the UTC hour bucket
`YYYY-MM-DD-HH` of instant `t` (zero-padded month, day and hour; the
year is interpolated unpadded). -/
def getHourKey (t : Nat) : String :=
  let c := civilFromDays (t / 86400000)
  toString c.1 ++ "-" ++ pad2 c.2.1 ++ "-" ++ pad2 c.2.2 ++ "-" ++ pad2 (utcHourOf t)

/-- Start of the next UTC hour after `t`, as computed by
`nextHour.setUTCHours(nextHour.getUTCHours() + 1, 0, 0, 0)` in
`checkRateLimit`. -/
def nextHourStart (t : Nat) : Nat := (t / 3600000 + 1) * 3600000

/-- Redis counter state: every key has an integer value, missing keys
read as 0. -/
abbrev Counters := String → Int

/-- The all-zero counter state (an empty Redis). -/
def zeroCounters : Counters := fun _ => 0

/-- `INCR key`: increment the counter at `k` by one. -/
def incrC (s : Counters) (k : String) : Counters :=
  fun q => if q = k then s q + 1 else s q

/-- `DECR key`: decrement the counter at `k` by one. -/
def decrC (s : Counters) (k : String) : Counters :=
  fun q => if q = k then s q - 1 else s q

/-- One Redis command issued by the rate limiter. -/
inductive ROp
  | incr (key : String)
  | decr (key : String)
  | expire (key : String) (seconds : Nat)
deriving DecidableEq, Repr

/-- Whether a Redis command is a `DECR`. -/
def ROp.isDecr : ROp → Bool
  | .decr _ => true
  | _ => false

/-- The keys of the `DECR` commands of a trace, in order. -/
def decrKeys (ops : List ROp) : List String :=
  ops.filterMap fun op =>
    match op with
    | .decr k => some k
    | _ => none

/-- Result record returned by `checkRateLimit`. -/
structure RateLimitResult where
  allowed : Bool
  remaining : Int
  resetTime : Nat
deriving DecidableEq, Repr

/-- Process-wide configuration (`config.rateLimiting`, from env with
defaults 200 / 50 / 2000 / 5). -/
structure AppConfig where
  maxEmailsPerHour : Int
  maxEmailsPerHourPerSender : Int
  minDelayBetweenEmailsMs : Int
  workerConcurrency : Int
deriving DecidableEq, Repr

/-- The configuration with all defaults
(`MAX_EMAILS_PER_HOUR=200`, `MAX_EMAILS_PER_HOUR_PER_SENDER=50`,
`MIN_DELAY_BETWEEN_EMAILS_MS=2000`, `WORKER_CONCURRENCY=5`). -/
def defaultConfig : AppConfig :=
  { maxEmailsPerHour := 200
    maxEmailsPerHourPerSender := 50
    minDelayBetweenEmailsMs := 2000
    workerConcurrency := 5 }

/-- Global counter key written by `services/rateLimiter.ts` in the
backend tree: `mailThrottle:global:<hourKey>`. -/
def globalCounterKey (t : Nat) : String :=
  "mailThrottle:global:" ++ getHourKey t

/-- Per-sender counter key written by `services/rateLimiter.ts`:
`mailThrottle:<senderId>:<hourKey>`. -/
def senderCounterKey (senderId : String) (t : Nat) : String :=
  "mailThrottle:" ++ senderId ++ ":" ++ getHourKey t

/-- Global counter key written by the `reachSessionLimit` variant of the
rate limiter: `reachSessionLimit:global:<hourKey>`. -/
def globalCounterKeyRS (t : Nat) : String :=
  "reachSessionLimit:global:" ++ getHourKey t

/-- Per-sender counter key written by the `reachSessionLimit` variant:
`reachSessionLimit:<senderId>:<hourKey>`. -/
def senderCounterKeyRS (senderId : String) (t : Nat) : String :=
  "reachSessionLimit:" ++ senderId ++ ":" ++ getHourKey t

/-- Output of one `checkRateLimit` call: its returned result, the Redis
state it leaves behind, and the Redis commands it issued in order. -/
structure CheckOut where
  result : RateLimitResult
  state : Counters
  ops : List ROp

/-- `checkRateLimit` from `services/rateLimiter.ts`, at instant `t` with
counter state `s`.  It increments the global hour counter; if that
exceeds the global ceiling it decrements it back and rejects.  Otherwise
with a sender id it increments the sender hour counter; if that exceeds
the per-sender ceiling it decrements sender then global and rejects.
`resetTime` is always the start of the next UTC hour. -/
def checkRateLimit (cfg : AppConfig) (t : Nat) (senderId : Option String)
    (s : Counters) : CheckOut :=
  let resetTime := nextHourStart t
  let gk := globalCounterKey t
  let globalCount := s gk + 1
  let s1 := incrC s gk
  if globalCount > cfg.maxEmailsPerHour then
    { result := { allowed := false, remaining := 0, resetTime := resetTime }
      state := decrC s1 gk
      ops := [.incr gk, .expire gk 3600, .decr gk] }
  else
    match senderId with
    | some sid =>
      let sk := senderCounterKey sid t
      let senderCount := s1 sk + 1
      let s2 := incrC s1 sk
      if senderCount > cfg.maxEmailsPerHourPerSender then
        { result := { allowed := false, remaining := 0, resetTime := resetTime }
          state := decrC (decrC s2 sk) gk
          ops := [.incr gk, .expire gk 3600, .incr sk, .expire sk 3600,
                  .decr sk, .decr gk] }
      else
        { result := { allowed := true
                      remaining := max 0 (cfg.maxEmailsPerHourPerSender - senderCount)
                      resetTime := resetTime }
          state := s2
          ops := [.incr gk, .expire gk 3600, .incr sk, .expire sk 3600] }
    | none =>
      { result := { allowed := true
                    remaining := max 0 (cfg.maxEmailsPerHour - globalCount)
                    resetTime := resetTime }
        state := s1
        ops := [.incr gk, .expire gk 3600] }

/-- Payload of one email delivery task
(`OutgoingMailTask` in `queue/reachinboxScheduler.ts`).  The ingress
route never sets `senderId`, so it is `none` on every enqueued task. -/
structure OutgoingMailTask where
  dispatchId : String
  campaignId : String
  recipientEmail : String
  subject : String
  body : String
  scheduledTime : Int
  senderId : Option String
deriving DecidableEq, Repr

/-- State of the scheduler queue: its jobs as
`(jobId, payload, delayMs)` triples in arrival order. -/
structure QueueState where
  jobs : List (String × OutgoingMailTask × Int)
deriving DecidableEq, Repr

/-- Modelled from the spec: `Queue.add` with an explicit job id — the
queue collaborator is not part of this repository, and the spec fixes
its contract as "Enqueue is idempotent on this key"; an add whose job id
is already present creates nothing. -/
def queueAdd (q : QueueState) (jobId : String) (payload : OutgoingMailTask)
    (delayMs : Int) : QueueState :=
  if q.jobs.any (fun j => j.1 == jobId) then q
  else { jobs := q.jobs ++ [(jobId, payload, delayMs)] }

/-- `enqueueOutgoingMail` from `queue/reachinboxScheduler.ts`: adds a
`deliverEmailTask` job with `jobId = "emailTask-" + dispatchId` and the
calculated delay. -/
def enqueueOutgoingMail (q : QueueState) (taskData : OutgoingMailTask)
    (calculatedDelay : Int) : QueueState :=
  queueAdd q ("emailTask-" ++ taskData.dispatchId) taskData calculatedDelay

/-- Number of jobs in the queue carrying a given job id. -/
def countJob (q : QueueState) (jobId : String) : Nat :=
  (q.jobs.filter (fun j => j.1 == jobId)).length

/-- Default job options of the scheduler queue
(`queue/reachinboxScheduler.ts`). -/
structure JobOptions where
  attempts : Nat
  backoffType : String
  backoffDelayMs : Nat
  removeOnCompleteAgeSeconds : Nat
  removeOnCompleteCount : Nat
  removeOnFailAgeSeconds : Nat
deriving DecidableEq, Repr

/-- `defaultJobOptions` of the `reachinboxScheduler` queue: 3 attempts,
exponential backoff starting at 5000 ms, completed jobs kept 24 h or
1000 items, failed jobs kept 7 days. -/
def schedulerDefaultJobOptions : JobOptions :=
  { attempts := 3
    backoffType := "exponential"
    backoffDelayMs := 5000
    removeOnCompleteAgeSeconds := 24 * 3600
    removeOnCompleteCount := 1000
    removeOnFailAgeSeconds := 7 * 24 * 3600 }

/-- Character class `[^\s@]` of the route's email regex (whitespace per
the JavaScript `\s` class, modelled by `Char.isWhitespace`). -/
def emailOkChar (c : Char) : Bool :=
  !(c == '@') && !c.isWhitespace

/-- Split a character list at its first `'@'`, if any. -/
def splitAtFirstAmp : List Char → Option (List Char × List Char)
  | [] => none
  | c :: cs =>
    if c = '@' then some ([], cs)
    else
      match splitAtFirstAmp cs with
      | some p => some (c :: p.1, p.2)
      | none => none

/-- The route's extra-safety email test
`/^[^\s@]+@[^\s@]+\.[^\s@]+$/.test(email)`: one `'@'` splitting the
string into a nonempty local part of `[^\s@]` characters and a domain
part of `[^\s@]` characters containing a `'.'` that is neither its
first nor its last character. -/
def matchesEmailRegex (s : String) : Bool :=
  match splitAtFirstAmp s.toList with
  | none => false
  | some p =>
    !p.1.isEmpty && p.1.all emailOkChar && !p.2.isEmpty && p.2.all emailOkChar &&
      ((p.2.drop 1).dropLast.contains '.')

/-- `Array.from(new Set(xs))`: deduplication keeping the first
occurrence of each element, in first-seen order. -/
def dedupAux (seen : List String) : List String → List String
  | [] => []
  | e :: es => if e ∈ seen then dedupAux seen es else e :: dedupAux (e :: seen) es

/-- First-seen-order deduplication of the recipient list. -/
def dedupFirst (l : List String) : List String := dedupAux [] l

/-- The parsed body of a `POST /api/campaigns` request, after
`createCampaignSchema.parse` (zod guarantees: `delayBetweenMs` is an
integer ≥ 0 when present, `hourlyLimit` an integer ≥ 1 when present,
`startTime` an ISO instant, here in epoch milliseconds). -/
structure CreateCampaignData where
  userId : String
  subject : String
  body : String
  recipientEmails : List String
  startTime : Int
  delayBetweenMs : Option Int
  hourlyLimit : Option Int
deriving DecidableEq, Repr

/-- A row of the `MailCampaign` table as inserted by the route. -/
structure MailCampaignRow where
  id : String
  userId : String
  subject : String
  body : String
  startTime : Int
  delayBetweenMs : Int
  hourlyLimit : Int
  status : String
deriving DecidableEq, Repr

/-- A row of the `MailDispatch` table as inserted by the route. -/
structure MailDispatchRow where
  id : String
  campaignId : String
  recipientEmail : String
  subject : String
  body : String
  scheduledTime : Int
  status : String
deriving DecidableEq, Repr

/-- HTTP response of the create-campaign route (success carries the
campaign and the `dispatchCount` / `totalEmails` / `failed` counters of
the 201 body). -/
inductive CampaignResponse
  | badRequest (error : String)
  | created (campaign : MailCampaignRow) (dispatchCount totalEmails failed : Nat)
deriving DecidableEq, Repr

/-- Everything one `POST /api/campaigns` call produces: the response,
the campaign row inserted (if the handler got that far) and its final
status, the per-recipient results, the dispatch rows inserted and the
tasks enqueued (payload with the delay passed to the queue). -/
structure CreateCampaignOutcome where
  response : CampaignResponse
  campaignRow : Option MailCampaignRow
  campaignFinalStatus : Option String
  results : List (String × Bool)
  dispatches : List MailDispatchRow
  tasks : List (OutgoingMailTask × Int)
deriving DecidableEq, Repr

/-- The per-recipient loop of the route.  `idx` is the running index
(delays use it even for skipped recipients), `inserted` the recipient
emails already present for this campaign — an insert for one of them
violates the `(campaignId, recipientEmail)` uniqueness constraint
(`ER_DUP_ENTRY`), is recorded as a failed result and enqueues nothing,
and the loop continues with the remaining recipients. -/
def campaignLoop (campaignId subject body : String) (ids : Nat → String)
    (now baseDelay dbm : Int) :
    Nat → List String → List String →
    List (String × Bool) × List MailDispatchRow × List (OutgoingMailTask × Int)
  | _, _, [] => ([], [], [])
  | idx, inserted, e :: es =>
    let delay := baseDelay + (idx : Int) * dbm
    let sched := now + delay
    if e ∈ inserted then
      let rest := campaignLoop campaignId subject body ids now baseDelay dbm
        (idx + 1) inserted es
      ((e, false) :: rest.1, rest.2.1, rest.2.2)
    else
      let did := ids idx
      let row : MailDispatchRow :=
        { id := did, campaignId := campaignId, recipientEmail := e,
          subject := subject, body := body, scheduledTime := sched,
          status := "SCHEDULED" }
      let task : OutgoingMailTask :=
        { dispatchId := did, campaignId := campaignId, recipientEmail := e,
          subject := subject, body := body, scheduledTime := sched,
          senderId := none }
      let rest := campaignLoop campaignId subject body ids now baseDelay dbm
        (idx + 1) (e :: inserted) es
      ((e, true) :: rest.1, row :: rest.2.1, (task, delay) :: rest.2.2)

/-- The `POST /api/campaigns` handler (`routes/campaigns.ts`), given the
current instant `now`, the generated campaign UUID, the per-iteration
dispatch UUIDs `ids`, and the recipient emails `existing` already
stored for this campaign (the uniqueness constraint's view).  Mirrors
the source order: empty check, dedup, regex filter, `||` defaults,
start-time check, campaign insert, per-recipient loop, zero-dispatch
check, `IN_PROGRESS` update. -/
def createCampaign (cfg : AppConfig) (now : Int) (campaignId : String)
    (ids : Nat → String) (existing : List String)
    (data : CreateCampaignData) : CreateCampaignOutcome :=
  if data.recipientEmails = [] then
    { response := .badRequest "At least one recipient email is required"
      campaignRow := none, campaignFinalStatus := none
      results := [], dispatches := [], tasks := [] }
  else
    let uniqueEmails := dedupFirst data.recipientEmails
    let invalidEmails := uniqueEmails.filter (fun e => !matchesEmailRegex e)
    if invalidEmails ≠ [] then
      { response := .badRequest
          ("Invalid email addresses: " ++ String.intercalate ", " invalidEmails)
        campaignRow := none, campaignFinalStatus := none
        results := [], dispatches := [], tasks := [] }
    else
      let delayBetweenMs := jsOrInt data.delayBetweenMs cfg.minDelayBetweenEmailsMs
      let hourlyLimit := jsOrInt data.hourlyLimit cfg.maxEmailsPerHourPerSender
      if data.startTime < now - 60000 then
        { response := .badRequest "Start time cannot be in the past"
          campaignRow := none, campaignFinalStatus := none
          results := [], dispatches := [], tasks := [] }
      else
        let campaign : MailCampaignRow :=
          { id := campaignId, userId := data.userId, subject := data.subject,
            body := data.body, startTime := data.startTime,
            delayBetweenMs := delayBetweenMs, hourlyLimit := hourlyLimit,
            status := "SCHEDULED" }
        let baseDelay := max 0 (data.startTime - now)
        let rdt := campaignLoop campaignId data.subject data.body ids now
          baseDelay delayBetweenMs 0 existing uniqueEmails
        let successCount := (rdt.1.filter (fun r => r.2)).length
        if successCount = 0 then
          { response := .badRequest
              "Failed to create any email dispatches. All emails may be duplicates."
            campaignRow := some campaign, campaignFinalStatus := some "SCHEDULED"
            results := rdt.1, dispatches := rdt.2.1, tasks := rdt.2.2 }
        else
          { response := .created campaign successCount uniqueEmails.length
              (rdt.1.length - successCount)
            campaignRow := some campaign, campaignFinalStatus := some "IN_PROGRESS"
            results := rdt.1, dispatches := rdt.2.1, tasks := rdt.2.2 }

/-- One SQL `UPDATE MailDispatch ...` issued by the worker. -/
inductive DbWrite
  | setStatus (dispatchId status : String)
  | setStatusSched (dispatchId status : String) (scheduledTime : Nat)
  | setSent (dispatchId status : String) (sentTime : Nat) (senderEmail : String)
  | setFailed (dispatchId status : String) (errorMessage : String)
deriving DecidableEq, Repr

/-- The dispatch status a SQL update sets. -/
def DbWrite.status : DbWrite → String
  | .setStatus _ st => st
  | .setStatusSched _ st _ => st
  | .setSent _ st _ _ => st
  | .setFailed _ st _ => st

/-- The dispatch status on the row after a sequence of updates. -/
def lastStatus (ws : List DbWrite) : Option String :=
  (ws.map DbWrite.status).getLast?

/-- Queue operation performed by the worker on its own job. -/
inductive QueueOp
  | moveToDelayed (delayMs : Nat)
deriving DecidableEq, Repr

/-- How the worker's task handler finished: a normal return (BullMQ
marks the job completed) or a thrown error (BullMQ applies the retry
policy). -/
inductive Outcome
  | completed
  | raised (message : String)
deriving DecidableEq, Repr

/-- Modelled from the spec: the queue's attempt accounting is not part
of this repository; the spec fixes it — "rescheduling returns normally
and the attempt counter MUST NOT advance; only TransportError paths
consume attempts", i.e. an attempt is consumed exactly when the handler
throws. -/
def attemptsConsumed : Outcome → Nat
  | .completed => 0
  | .raised _ => 1

/-- Result of `sendEmail` when it resolves
(`services/emailService.ts`). -/
structure SendInfo where
  messageId : String
  previewUrl : Option String
deriving DecidableEq, Repr

/-- Trace of one execution of the worker's task handler. -/
structure WorkerRun where
  dbWrites : List DbWrite
  sendCalls : List (String × String × String)
  queueOps : List QueueOp
  redisOps : List ROp
  outcome : Outcome
  countersAfter : Counters

/-- `processEmailDelivery` from `queue/worker.ts`, one execution.
`tCheck` is `Date.now()` inside `checkRateLimit`, `tDelay` the
`Date.now()` of the `delayUntilNextHour` computation, `tSend` the
`new Date()` stored as `sentTime`; `loaded` is the status column of the
dispatch row read by the duplicate-execution guard (`none` when the row
does not exist) and `sendResult` the behaviour of the injected SMTP
transport.  The in-handler sleep of `minDelayBetweenEmailsMs` changes
no state and is not recorded.  The `catch` block records FAILED with
`error.message || 'Unknown error'` and re-throws; this also catches the
`'Rate limit exceeded, retrying...'` thrown when the computed delay is
not positive. -/
def processEmailDelivery (cfg : AppConfig) (tCheck tDelay tSend : Nat)
    (loaded : Option String) (sendResult : Except String SendInfo)
    (s : Counters) (job : OutgoingMailTask) : WorkerRun :=
  if loaded = some "SENT" then
    { dbWrites := [], sendCalls := [], queueOps := [], redisOps := []
      outcome := .completed, countersAfter := s }
  else
    let sending := DbWrite.setStatus job.dispatchId "SENDING"
    let check := checkRateLimit cfg tCheck job.senderId s
    if check.result.allowed = false then
      let rl := DbWrite.setStatusSched job.dispatchId "RATE_LIMITED"
        check.result.resetTime
      if tDelay < check.result.resetTime then
        { dbWrites := [sending, rl], sendCalls := []
          queueOps := [.moveToDelayed (check.result.resetTime - tDelay)]
          redisOps := check.ops, outcome := .completed
          countersAfter := check.state }
      else
        { dbWrites := [sending, rl,
            .setFailed job.dispatchId "FAILED" "Rate limit exceeded, retrying..."]
          sendCalls := [], queueOps := [], redisOps := check.ops
          outcome := .raised "Rate limit exceeded, retrying..."
          countersAfter := check.state }
    else
      match sendResult with
      | .ok info =>
        { dbWrites := [sending,
            .setSent job.dispatchId "SENT" tSend info.messageId]
          sendCalls := [(job.recipientEmail, job.subject, job.body)]
          queueOps := [], redisOps := check.ops, outcome := .completed
          countersAfter := check.state }
      | .error msg =>
        { dbWrites := [sending,
            .setFailed job.dispatchId "FAILED" (jsOrString msg "Unknown error")]
          sendCalls := [(job.recipientEmail, job.subject, job.body)]
          queueOps := [], redisOps := check.ops, outcome := .raised msg
          countersAfter := check.state }

/-- Modelled from the spec: the queue's retry policy — re-run the
handler while it throws, for at most the attempt budget; a normal
return ends the trace.  `step i` is the handler's behaviour on attempt
`i` (0-based). -/
def runWithRetries (step : Nat → WorkerRun) : Nat → Nat → List WorkerRun
  | _, 0 => []
  | i, n + 1 =>
    let r := step i
    match r.outcome with
    | .completed => [r]
    | .raised _ => r :: runWithRetries step (i + 1) n

theorem incrC_self (s : Counters) (k : String) : incrC s k k = s k + 1 := by
  simp [incrC]

theorem decrC_incrC (s : Counters) (k : String) : decrC (incrC s k) k = s := by
  funext q
  simp only [incrC, decrC]
  split_ifs <;> omega

theorem decrC_decrC_incrC_incrC (s : Counters) (g k : String) :
    decrC (decrC (incrC (incrC s g) k) k) g = s := by
  funext q
  simp only [incrC, decrC]
  split_ifs <;> omega

theorem checkRateLimit_resetTime (cfg : AppConfig) (t : Nat)
    (senderId : Option String) (s : Counters) :
    (checkRateLimit cfg t senderId s).result.resetTime = nextHourStart t := by
  cases senderId <;> simp only [checkRateLimit] <;> split_ifs <;> rfl

theorem checkRateLimit_allowed_no_decr (cfg : AppConfig) (t : Nat)
    (senderId : Option String) (s : Counters)
    (h : (checkRateLimit cfg t senderId s).result.allowed = true) :
    (checkRateLimit cfg t senderId s).ops.filter ROp.isDecr = [] := by
  cases senderId <;> simp only [checkRateLimit] at h ⊢ <;>
    split_ifs at h ⊢ <;> simp_all [ROp.isDecr]

/-- C2: whenever `checkRateLimit` rejects, the Redis counter state it
leaves behind equals the state it started from (the net change to every
counter is zero); a global-ceiling reject issues exactly one `DECR`, on
the global key, and a sender-ceiling reject (global check passed, a
sender id present) issues exactly the two `DECR`s sender-key first,
global-key second. -/
theorem rateLimit_reject_rolls_back (cfg : AppConfig) (t : Nat)
    (senderId : Option String) (s : Counters)
    (h : (checkRateLimit cfg t senderId s).result.allowed = false) :
    (checkRateLimit cfg t senderId s).state = s ∧
    ((s (globalCounterKey t) + 1 > cfg.maxEmailsPerHour ∧
       decrKeys (checkRateLimit cfg t senderId s).ops = [globalCounterKey t]) ∨
     (∃ sid, senderId = some sid ∧
       ¬ s (globalCounterKey t) + 1 > cfg.maxEmailsPerHour ∧
       decrKeys (checkRateLimit cfg t senderId s).ops =
         [senderCounterKey sid t, globalCounterKey t])) := by
  cases senderId with
  | none =>
    simp only [checkRateLimit, incrC_self] at h ⊢
    split_ifs at h ⊢ with hg
    exact ⟨decrC_incrC s (globalCounterKey t), Or.inl ⟨hg, by simp [decrKeys]⟩⟩
  | some sid =>
    simp only [checkRateLimit, incrC_self] at h ⊢
    split_ifs at h ⊢ with hg hs
    · exact ⟨decrC_incrC s (globalCounterKey t), Or.inl ⟨hg, by simp [decrKeys]⟩⟩
    · refine ⟨decrC_decrC_incrC_incrC s (globalCounterKey t) (senderCounterKey sid t),
        Or.inr ⟨sid, rfl, hg, by simp [decrKeys]⟩⟩

/-- Configuration whose global hourly ceiling is zero, so that the very
first admission check of the hour is rejected. -/
def throttledConfig : AppConfig :=
  { defaultConfig with maxEmailsPerHour := 0 }

/-- Witness for C2 at a concrete input: an empty Redis and a zero
global ceiling make the check reject, and the state is rolled back with
one global `DECR`. -/
theorem rateLimit_reject_rolls_back_witness :
    (checkRateLimit throttledConfig 0 none zeroCounters).state = zeroCounters ∧
    decrKeys (checkRateLimit throttledConfig 0 none zeroCounters).ops =
      [globalCounterKey 0] := by
  obtain ⟨h1, h2⟩ :=
    rateLimit_reject_rolls_back throttledConfig 0 none zeroCounters (by decide)
  refine ⟨h1, ?_⟩
  rcases h2 with ⟨-, hk⟩ | ⟨sid, hsid, -⟩
  · exact hk
  · exact Option.noConfusion hsid

/-- C1: when the dispatch row loaded by the worker's duplicate-execution
guard already has status SENT, the handler returns normally at once: no
SQL update is written, no SMTP call is made, no queue or Redis operation
is issued, and the counter state is untouched. -/
theorem worker_skips_already_sent (cfg : AppConfig) (tCheck tDelay tSend : Nat)
    (loaded : Option String) (sendResult : Except String SendInfo)
    (s : Counters) (job : OutgoingMailTask) (h : loaded = some "SENT") :
    (processEmailDelivery cfg tCheck tDelay tSend loaded sendResult s job).dbWrites = [] ∧
    (processEmailDelivery cfg tCheck tDelay tSend loaded sendResult s job).sendCalls = [] ∧
    (processEmailDelivery cfg tCheck tDelay tSend loaded sendResult s job).queueOps = [] ∧
    (processEmailDelivery cfg tCheck tDelay tSend loaded sendResult s job).redisOps = [] ∧
    (processEmailDelivery cfg tCheck tDelay tSend loaded sendResult s job).outcome = .completed ∧
    (processEmailDelivery cfg tCheck tDelay tSend loaded sendResult s job).countersAfter = s := by
  subst h
  simp [processEmailDelivery]

/-- A dispatch task as the ingress route enqueues it. -/
def sampleJob : OutgoingMailTask :=
  { dispatchId := "d-1", campaignId := "c-1", recipientEmail := "a@x.io",
    subject := "hello", body := "world", scheduledTime := 60000,
    senderId := none }

/-- Witness for C1 at a concrete input: a task whose dispatch row reads
SENT is completed silently. -/
theorem worker_skips_already_sent_witness :
    (processEmailDelivery defaultConfig 0 0 0 (some "SENT") (.error "boom")
      zeroCounters sampleJob).dbWrites = [] ∧
    (processEmailDelivery defaultConfig 0 0 0 (some "SENT") (.error "boom")
      zeroCounters sampleJob).sendCalls = [] ∧
    (processEmailDelivery defaultConfig 0 0 0 (some "SENT") (.error "boom")
      zeroCounters sampleJob).queueOps = [] ∧
    (processEmailDelivery defaultConfig 0 0 0 (some "SENT") (.error "boom")
      zeroCounters sampleJob).redisOps = [] ∧
    (processEmailDelivery defaultConfig 0 0 0 (some "SENT") (.error "boom")
      zeroCounters sampleJob).outcome = .completed ∧
    (processEmailDelivery defaultConfig 0 0 0 (some "SENT") (.error "boom")
      zeroCounters sampleJob).countersAfter = zeroCounters :=
  worker_skips_already_sent defaultConfig 0 0 0 (some "SENT") (.error "boom")
    zeroCounters sampleJob rfl

/-- C3: the task enqueued for a dispatch carries the deterministic job
id `"emailTask-" + dispatchId`; after one enqueue that id is present,
re-enqueueing the same dispatch (even with a different delay) leaves
the queue unchanged, and from an empty queue two enqueues of the same
dispatch leave exactly one task under that id. -/
theorem enqueue_idempotent_on_task_id (q : QueueState) (t : OutgoingMailTask)
    (d d₁ : Int) :
    ((enqueueOutgoingMail q t d).jobs.any
      (fun j => j.1 == "emailTask-" ++ t.dispatchId)) = true ∧
    enqueueOutgoingMail (enqueueOutgoingMail q t d) t d₁ =
      enqueueOutgoingMail q t d ∧
    countJob (enqueueOutgoingMail (enqueueOutgoingMail ⟨[]⟩ t d) t d₁)
      ("emailTask-" ++ t.dispatchId) = 1 := by
  have hkey : ∀ (q₀ : QueueState),
      ((enqueueOutgoingMail q₀ t d).jobs.any
        (fun j => j.1 == "emailTask-" ++ t.dispatchId)) = true := by
    intro q₀
    by_cases hq : (q₀.jobs.any (fun j => j.1 == "emailTask-" ++ t.dispatchId)) = true
    · simp [enqueueOutgoingMail, queueAdd, hq]
    · simp [enqueueOutgoingMail, queueAdd, hq]
  refine ⟨hkey q, ?_, ?_⟩
  · conv_lhs => rw [enqueueOutgoingMail]
    rw [queueAdd, if_pos (hkey q)]
  · simp [enqueueOutgoingMail, queueAdd, countJob]

/-- C4 (code-bug evidence): at the concrete instant 2024-01-05T07:30Z
(epoch ms 1704439800000) the backend rate limiter builds keys with the
`mailThrottle:` prefix, and every Redis command of an admission check
touches such a key; the `reachSessionLimit` variant of the limiter in
this repository builds `reachSessionLimit:global:2024-01-05-07` for the
same instant, and the two differ — so the keys the backend limiter
writes do not have the `reachSessionLimit:<scope>:YYYY-MM-DD-HH` shape
documented in its own worker's comments, although the UTC hour suffix
`2024-01-05-07` matches. -/
theorem rate_counter_key_uses_mailThrottle :
    globalCounterKey 1704439800000 = "mailThrottle:global:2024-01-05-07" ∧
    senderCounterKey "u-7" 1704439800000 = "mailThrottle:u-7:2024-01-05-07" ∧
    globalCounterKeyRS 1704439800000 = "reachSessionLimit:global:2024-01-05-07" ∧
    senderCounterKeyRS "u-7" 1704439800000 = "reachSessionLimit:u-7:2024-01-05-07" ∧
    (checkRateLimit defaultConfig 1704439800000 none zeroCounters).ops =
      [.incr "mailThrottle:global:2024-01-05-07",
       .expire "mailThrottle:global:2024-01-05-07" 3600] ∧
    "mailThrottle:global:2024-01-05-07" ≠ "reachSessionLimit:global:2024-01-05-07" := by
  refine ⟨by decide, by decide, by decide, by decide, by decide, by decide⟩

/-- C5: when the admission check rejects a task and the reset instant
has not yet passed when the requeue delay is computed, the worker sets
the dispatch to RATE_LIMITED with `scheduledTime` equal to the reset
instant (the start of the next UTC hour), moves its own job to the
delayed state for `resetTime − now` milliseconds, makes no SMTP call
and returns normally, so no attempt is consumed. -/
theorem worker_rate_limited_reschedules (cfg : AppConfig)
    (tCheck tDelay tSend : Nat) (loaded : Option String)
    (sendResult : Except String SendInfo) (s : Counters) (job : OutgoingMailTask)
    (hNotSent : loaded ≠ some "SENT")
    (hDenied : (checkRateLimit cfg tCheck job.senderId s).result.allowed = false)
    (hTime : tDelay < nextHourStart tCheck) :
    (processEmailDelivery cfg tCheck tDelay tSend loaded sendResult s job).dbWrites =
      [.setStatus job.dispatchId "SENDING",
       .setStatusSched job.dispatchId "RATE_LIMITED" (nextHourStart tCheck)] ∧
    (processEmailDelivery cfg tCheck tDelay tSend loaded sendResult s job).queueOps =
      [.moveToDelayed (nextHourStart tCheck - tDelay)] ∧
    (processEmailDelivery cfg tCheck tDelay tSend loaded sendResult s job).sendCalls = [] ∧
    (processEmailDelivery cfg tCheck tDelay tSend loaded sendResult s job).outcome = .completed ∧
    attemptsConsumed
      (processEmailDelivery cfg tCheck tDelay tSend loaded sendResult s job).outcome = 0 := by
  simp only [processEmailDelivery, checkRateLimit_resetTime]
  rw [if_neg hNotSent, if_pos hDenied, if_pos hTime]
  exact ⟨rfl, rfl, rfl, rfl, rfl⟩

/-- Witness for C5 at a concrete input: a zero global ceiling rejects
the first task of the hour; the dispatch is rescheduled to the next
UTC hour start (3600000) with a delay of 3599000 ms and the handler
completes normally. -/
theorem worker_rate_limited_reschedules_witness :
    (processEmailDelivery throttledConfig 0 1000 0 (some "SCHEDULED")
      (.error "boom") zeroCounters sampleJob).dbWrites =
      [.setStatus "d-1" "SENDING", .setStatusSched "d-1" "RATE_LIMITED" 3600000] ∧
    (processEmailDelivery throttledConfig 0 1000 0 (some "SCHEDULED")
      (.error "boom") zeroCounters sampleJob).queueOps =
      [.moveToDelayed 3599000] ∧
    (processEmailDelivery throttledConfig 0 1000 0 (some "SCHEDULED")
      (.error "boom") zeroCounters sampleJob).sendCalls = [] ∧
    (processEmailDelivery throttledConfig 0 1000 0 (some "SCHEDULED")
      (.error "boom") zeroCounters sampleJob).outcome = .completed ∧
    attemptsConsumed
      (processEmailDelivery throttledConfig 0 1000 0 (some "SCHEDULED")
        (.error "boom") zeroCounters sampleJob).outcome = 0 :=
  worker_rate_limited_reschedules throttledConfig 0 1000 0 (some "SCHEDULED")
    (.error "boom") zeroCounters sampleJob (by decide) (by decide) (by decide)

/-- C6 (amended): when the transport throws, the worker issues no
counter `DECR` — the counter state stays exactly the post-admission
state, so the admitted slot remains consumed — re-throws the error so
the queue's retry policy (3 attempts, exponential backoff from 5000 ms)
applies, and records FAILED on the dispatch row in this same attempt. -/
theorem worker_send_failure_keeps_slot (cfg : AppConfig)
    (tCheck tDelay tSend : Nat) (loaded : Option String) (msg : String)
    (s : Counters) (job : OutgoingMailTask)
    (hNotSent : loaded ≠ some "SENT")
    (hAllowed : (checkRateLimit cfg tCheck job.senderId s).result.allowed = true) :
    (processEmailDelivery cfg tCheck tDelay tSend loaded (.error msg) s job).redisOps.filter
      ROp.isDecr = [] ∧
    (processEmailDelivery cfg tCheck tDelay tSend loaded (.error msg) s job).countersAfter =
      (checkRateLimit cfg tCheck job.senderId s).state ∧
    (processEmailDelivery cfg tCheck tDelay tSend loaded (.error msg) s job).outcome =
      .raised msg ∧
    (processEmailDelivery cfg tCheck tDelay tSend loaded (.error msg) s job).dbWrites =
      [.setStatus job.dispatchId "SENDING",
       .setFailed job.dispatchId "FAILED" (jsOrString msg "Unknown error")] ∧
    schedulerDefaultJobOptions.attempts = 3 ∧
    schedulerDefaultJobOptions.backoffType = "exponential" := by
  have hne : ¬ (checkRateLimit cfg tCheck job.senderId s).result.allowed = false := by
    simp [hAllowed]
  simp only [processEmailDelivery]
  split_ifs with h1
  · exact absurd h1 hNotSent
  · exact ⟨checkRateLimit_allowed_no_decr cfg tCheck job.senderId s hAllowed,
      rfl, rfl, rfl, rfl, rfl⟩

/-- Witness for C6's amended theorem at a concrete input. -/
theorem worker_send_failure_keeps_slot_witness :
    (processEmailDelivery defaultConfig 0 0 0 (some "SCHEDULED")
      (.error "SMTP connection lost") zeroCounters sampleJob).redisOps.filter
      ROp.isDecr = [] ∧
    (processEmailDelivery defaultConfig 0 0 0 (some "SCHEDULED")
      (.error "SMTP connection lost") zeroCounters sampleJob).countersAfter =
      (checkRateLimit defaultConfig 0 none zeroCounters).state ∧
    (processEmailDelivery defaultConfig 0 0 0 (some "SCHEDULED")
      (.error "SMTP connection lost") zeroCounters sampleJob).outcome =
      .raised "SMTP connection lost" ∧
    (processEmailDelivery defaultConfig 0 0 0 (some "SCHEDULED")
      (.error "SMTP connection lost") zeroCounters sampleJob).dbWrites =
      [.setStatus "d-1" "SENDING",
       .setFailed "d-1" "FAILED" "SMTP connection lost"] ∧
    schedulerDefaultJobOptions.attempts = 3 ∧
    schedulerDefaultJobOptions.backoffType = "exponential" :=
  worker_send_failure_keeps_slot defaultConfig 0 0 0 (some "SCHEDULED")
    "SMTP connection lost" zeroCounters sampleJob (by decide) (by decide)

/-- The handler's behaviour when every attempt finds the transport
throwing: dispatch row loaded as SCHEDULED, admission granted, SMTP
throws. -/
def failingStep : Nat → WorkerRun := fun _ =>
  processEmailDelivery defaultConfig 0 0 0 (some "SCHEDULED")
    (.error "SMTP connection lost") zeroCounters sampleJob

/-- C6 counterexample: with the scheduler's 3-attempt budget and a
transport that always throws, already the prefix of the trace up to the
first attempt leaves the dispatch row reading FAILED, while the full
trace shows two further attempts still follow — FAILED is recorded
before the attempt budget is exhausted, refuting the claim as stated. -/
theorem worker_marks_failed_before_budget_exhausted :
    lastStatus (List.flatten
      (((runWithRetries failingStep 0 schedulerDefaultJobOptions.attempts).take 1).map
        WorkerRun.dbWrites)) = some "FAILED" ∧
    (runWithRetries failingStep 0 schedulerDefaultJobOptions.attempts).length = 3 ∧
    1 < schedulerDefaultJobOptions.attempts := by
  refine ⟨by decide, by decide, by decide⟩

theorem mem_dedupAux : ∀ (l seen : List String) (a : String),
    a ∈ dedupAux seen l → a ∈ l ∧ a ∉ seen := by
  intro l
  induction l with
  | nil => intro seen a h; cases h
  | cons e es ih =>
    intro seen a h
    by_cases he : e ∈ seen
    · simp only [dedupAux, if_pos he] at h
      obtain ⟨h1, h2⟩ := ih seen a h
      exact ⟨List.mem_cons_of_mem e h1, h2⟩
    · simp only [dedupAux, if_neg he] at h
      rcases List.mem_cons.mp h with rfl | h
      · exact ⟨List.mem_cons_self a es, he⟩
      · obtain ⟨h1, h2⟩ := ih (e :: seen) a h
        refine ⟨List.mem_cons_of_mem e h1, fun hs => h2 (List.mem_cons_of_mem e hs)⟩

theorem dedupAux_nodup : ∀ (l seen : List String), (dedupAux seen l).Nodup := by
  intro l
  induction l with
  | nil => intro seen; exact List.nodup_nil
  | cons e es ih =>
    intro seen
    by_cases he : e ∈ seen
    · simpa only [dedupAux, if_pos he] using ih seen
    · simp only [dedupAux, if_neg he]
      refine List.nodup_cons.mpr ⟨fun hmem => ?_, ih (e :: seen)⟩
      exact (mem_dedupAux es (e :: seen) e hmem).2 (List.mem_cons_self e seen)

theorem dedupFirst_nodup (l : List String) : (dedupFirst l).Nodup :=
  dedupAux_nodup l []

theorem dedupFirst_ne_nil (l : List String) (h : l ≠ []) : dedupFirst l ≠ [] := by
  cases l with
  | nil => exact absurd rfl h
  | cons e es =>
    simp [dedupFirst, dedupAux]

/-- Map with a running index, starting at a given offset: the loop body
applied at each element's absolute position. -/
def mapWithIndex {α β : Type} (f : Nat → α → β) : Nat → List α → List β
  | _, [] => []
  | i, e :: es => f i e :: mapWithIndex f (i + 1) es

theorem campaignLoop_all_new (campaignId subject body : String) (ids : Nat → String)
    (now baseDelay dbm : Int) :
    ∀ (es : List String) (idx : Nat) (inserted : List String),
      es.Nodup → (∀ x, x ∈ es → x ∉ inserted) →
      campaignLoop campaignId subject body ids now baseDelay dbm idx inserted es =
        (es.map (fun e => (e, true)),
         mapWithIndex (fun i e =>
           ({ id := ids i, campaignId := campaignId, recipientEmail := e,
              subject := subject, body := body,
              scheduledTime := now + (baseDelay + (i : Int) * dbm),
              status := "SCHEDULED" } : MailDispatchRow)) idx es,
         mapWithIndex (fun i e =>
           (({ dispatchId := ids i, campaignId := campaignId, recipientEmail := e,
               subject := subject, body := body,
               scheduledTime := now + (baseDelay + (i : Int) * dbm),
               senderId := none } : OutgoingMailTask),
            baseDelay + (i : Int) * dbm)) idx es) := by
  intro es
  induction es with
  | nil => intro idx inserted _ _; rfl
  | cons e es ih =>
    intro idx inserted hnd hins
    have he : e ∉ inserted := hins e (List.mem_cons_self e es)
    have hnd' : es.Nodup := (List.nodup_cons.mp hnd).2
    have hins' : ∀ x, x ∈ es → x ∉ (e :: inserted) := by
      intro x hx hmem
      rcases List.mem_cons.mp hmem with rfl | hmem
      · exact (List.nodup_cons.mp hnd).1 hx
      · exact hins x (List.mem_cons_of_mem e hx) hmem
    simp only [campaignLoop, if_neg he, ih (idx + 1) (e :: inserted) hnd' hins']
    rfl

theorem campaignLoop_skips (campaignId subject body : String) (ids : Nat → String)
    (now baseDelay dbm : Int) (existing : List String) :
    ∀ (es : List String) (idx : Nat) (inserted : List String),
      es.Nodup → (∀ x, x ∈ es → (x ∈ inserted ↔ x ∈ existing)) →
      (campaignLoop campaignId subject body ids now baseDelay dbm idx inserted es).1 =
        es.map (fun e => (e, decide (e ∉ existing))) ∧
      (campaignLoop campaignId subject body ids now baseDelay dbm idx inserted es).2.2.map
          (fun p => p.1.recipientEmail) =
        es.filter (fun e => decide (e ∉ existing)) := by
  intro es
  induction es with
  | nil => intro idx inserted _ _; exact ⟨rfl, rfl⟩
  | cons e es ih =>
    intro idx inserted hnd hinv
    have hiff : e ∈ inserted ↔ e ∈ existing := hinv e (List.mem_cons_self e es)
    have hnd' : es.Nodup := (List.nodup_cons.mp hnd).2
    have hinv' : ∀ x, x ∈ es →
        (x ∈ (if e ∈ inserted then inserted else e :: inserted) ↔ x ∈ existing) := by
      intro x hx
      split_ifs with hcase
      · exact hinv x (List.mem_cons_of_mem e hx)
      · constructor
        · intro hmem
          rcases List.mem_cons.mp hmem with rfl | hmem
          · exact absurd hx (List.nodup_cons.mp hnd).1
          · exact (hinv x (List.mem_cons_of_mem e hx)).mp hmem
        · intro hmem
          exact List.mem_cons_of_mem e ((hinv x (List.mem_cons_of_mem e hx)).mpr hmem)
    by_cases he : e ∈ inserted
    · have hex : e ∈ existing := hiff.mp he
      have ihres := ih (idx + 1) inserted hnd' (by simpa [he] using hinv')
      simp only [campaignLoop, if_pos he]
      refine ⟨?_, ?_⟩
      · simp only [List.map_cons, ihres.1]
        simp [hex]
      · simp only [ihres.2, List.filter_cons]
        simp [hex]
    · have hex : e ∉ existing := fun hmem => he (hiff.mpr hmem)
      have ihres := ih (idx + 1) (e :: inserted) hnd' (by simpa [he] using hinv')
      simp only [campaignLoop, if_neg he]
      refine ⟨?_, ?_⟩
      · simp only [List.map_cons, ihres.1]
        simp [hex]
      · simp only [List.map_cons, ihres.2, List.filter_cons]
        simp [hex]

/-- C7: for an accepted create-campaign request over the deduplicated
recipients in first-seen order, dispatch `i` is created with
`delay_i = max(0, startTime − now) + i * delayBetweenMs` (the effective
spacing after the route's defaulting), `scheduledTime_i = now + delay_i`,
and its task is enqueued with exactly that delay. -/
theorem campaign_dispatch_delays (cfg : AppConfig) (now : Int) (campaignId : String)
    (ids : Nat → String) (data : CreateCampaignData)
    (h1 : data.recipientEmails ≠ [])
    (h2 : ∀ e, e ∈ dedupFirst data.recipientEmails → matchesEmailRegex e = true)
    (h3 : ¬ data.startTime < now - 60000) :
    (createCampaign cfg now campaignId ids [] data).dispatches =
      mapWithIndex (fun i e =>
        ({ id := ids i, campaignId := campaignId, recipientEmail := e,
           subject := data.subject, body := data.body,
           scheduledTime := now + (max 0 (data.startTime - now) +
             (i : Int) * jsOrInt data.delayBetweenMs cfg.minDelayBetweenEmailsMs),
           status := "SCHEDULED" } : MailDispatchRow)) 0
        (dedupFirst data.recipientEmails) ∧
    (createCampaign cfg now campaignId ids [] data).tasks =
      mapWithIndex (fun i e =>
        (({ dispatchId := ids i, campaignId := campaignId, recipientEmail := e,
            subject := data.subject, body := data.body,
            scheduledTime := now + (max 0 (data.startTime - now) +
              (i : Int) * jsOrInt data.delayBetweenMs cfg.minDelayBetweenEmailsMs),
            senderId := none } : OutgoingMailTask),
         max 0 (data.startTime - now) +
           (i : Int) * jsOrInt data.delayBetweenMs cfg.minDelayBetweenEmailsMs)) 0
        (dedupFirst data.recipientEmails) := by
  have hfilter : (dedupFirst data.recipientEmails).filter
      (fun e => !matchesEmailRegex e) = [] := by
    refine List.filter_eq_nil_iff.mpr ?_
    intro a ha
    simp [h2 a ha]
  have hloop := campaignLoop_all_new campaignId data.subject data.body ids now
    (max 0 (data.startTime - now))
    (jsOrInt data.delayBetweenMs cfg.minDelayBetweenEmailsMs)
    (dedupFirst data.recipientEmails) 0 []
    (dedupFirst_nodup data.recipientEmails) (by intro x _ hx; cases hx)
  have hsucc : ¬ ((((dedupFirst data.recipientEmails).map (fun e => (e, true))).filter
      (fun r => r.2)).length = 0) := by
    have hself : ((dedupFirst data.recipientEmails).map (fun e => (e, true))).filter
        (fun r => r.2) = (dedupFirst data.recipientEmails).map (fun e => (e, true)) := by
      refine List.filter_eq_self.mpr ?_
      intro a ha
      rcases List.mem_map.mp ha with ⟨e, -, rfl⟩
      rfl
    rw [hself, List.length_map, List.length_eq_zero]
    exact dedupFirst_ne_nil data.recipientEmails h1
  simp only [createCampaign, if_neg h1, hfilter]
  rw [if_neg (by simp), if_neg h3, hloop, if_neg hsucc]
  exact ⟨rfl, rfl⟩

/-- Dispatch UUIDs as injected into the route model for concrete runs. -/
def campaignIds : Nat → String := fun i => "disp-" ++ toString i

/-- The spec's happy-path request: two recipients, start one minute
ahead, 2000 ms spacing. -/
def happyPathRequest : CreateCampaignData :=
  { userId := "u-1", subject := "hello", body := "world",
    recipientEmails := ["a@x.io", "b@x.io"], startTime := 60000,
    delayBetweenMs := some 2000, hourlyLimit := none }

/-- Witness for C7 at the spec's happy-path input taken at `now = 0`:
the two dispatches are scheduled 60 s and 62 s ahead and their tasks
are enqueued with exactly those delays. -/
theorem campaign_dispatch_delays_witness :
    (createCampaign defaultConfig 0 "camp-1" campaignIds [] happyPathRequest).dispatches =
      [{ id := "disp-0", campaignId := "camp-1", recipientEmail := "a@x.io",
         subject := "hello", body := "world", scheduledTime := 60000,
         status := "SCHEDULED" },
       { id := "disp-1", campaignId := "camp-1", recipientEmail := "b@x.io",
         subject := "hello", body := "world", scheduledTime := 62000,
         status := "SCHEDULED" }] ∧
    (createCampaign defaultConfig 0 "camp-1" campaignIds [] happyPathRequest).tasks =
      [({ dispatchId := "disp-0", campaignId := "camp-1", recipientEmail := "a@x.io",
          subject := "hello", body := "world", scheduledTime := 60000,
          senderId := none }, 60000),
       ({ dispatchId := "disp-1", campaignId := "camp-1", recipientEmail := "b@x.io",
          subject := "hello", body := "world", scheduledTime := 62000,
          senderId := none }, 62000)] :=
  campaign_dispatch_delays defaultConfig 0 "camp-1" campaignIds happyPathRequest
    (by decide) (by decide) (by decide)

/-- The happy-path request with an explicit `delayBetweenMs` of 0. -/
def zeroDelayRequest : CreateCampaignData :=
  { happyPathRequest with delayBetweenMs := some 0 }

/-- C8 (code-bug evidence): the route computes the effective spacing
with JavaScript `||`, so a request that explicitly supplies
`delayBetweenMs = 0` — a value its own zod schema admits — is given the
configured default of 2000 ms instead: the stored campaign row reads
`delayBetweenMs = 2000` and the two enqueued tasks are 2000 ms apart
(delays 60000 and 62000) rather than simultaneous. -/
theorem delay_zero_falls_back_to_default :
    zeroDelayRequest.delayBetweenMs = some 0 ∧
    (createCampaign defaultConfig 0 "camp-1" campaignIds [] zeroDelayRequest).campaignRow =
      some { id := "camp-1", userId := "u-1", subject := "hello", body := "world",
             startTime := 60000, delayBetweenMs := 2000, hourlyLimit := 50,
             status := "SCHEDULED" } ∧
    (createCampaign defaultConfig 0 "camp-1" campaignIds [] zeroDelayRequest).tasks.map
      (fun p => p.2) = [60000, 62000] := by
  refine ⟨rfl, by decide, by decide⟩

/-- C9: for an accepted request processed against a store already
holding `existing` recipients for this campaign, every duplicate insert
is recorded as a skipped result and enqueues no task while the
remaining recipients are still processed (the enqueued tasks are
exactly the non-duplicates, in order), and if every deduplicated
recipient is a duplicate the request fails with the BadRequest
no-dispatches response. -/
theorem duplicate_dispatch_skipped (cfg : AppConfig) (now : Int) (campaignId : String)
    (ids : Nat → String) (existing : List String) (data : CreateCampaignData)
    (h1 : data.recipientEmails ≠ [])
    (h2 : ∀ e, e ∈ dedupFirst data.recipientEmails → matchesEmailRegex e = true)
    (h3 : ¬ data.startTime < now - 60000) :
    (createCampaign cfg now campaignId ids existing data).results =
      (dedupFirst data.recipientEmails).map (fun e => (e, decide (e ∉ existing))) ∧
    (createCampaign cfg now campaignId ids existing data).tasks.map
        (fun p => p.1.recipientEmail) =
      (dedupFirst data.recipientEmails).filter (fun e => decide (e ∉ existing)) ∧
    ((∀ e, e ∈ dedupFirst data.recipientEmails → e ∈ existing) →
      (createCampaign cfg now campaignId ids existing data).response =
        .badRequest "Failed to create any email dispatches. All emails may be duplicates.") := by
  have hfilter : (dedupFirst data.recipientEmails).filter
      (fun e => !matchesEmailRegex e) = [] := by
    refine List.filter_eq_nil_iff.mpr ?_
    intro a ha
    simp [h2 a ha]
  obtain ⟨hres, htas⟩ := campaignLoop_skips campaignId data.subject data.body ids now
    (max 0 (data.startTime - now))
    (jsOrInt data.delayBetweenMs cfg.minDelayBetweenEmailsMs) existing
    (dedupFirst data.recipientEmails) 0 existing
    (dedupFirst_nodup data.recipientEmails) (by intro x _; exact Iff.rfl)
  simp only [createCampaign, if_neg h1, hfilter]
  rw [if_neg (by simp), if_neg h3, hres]
  refine ⟨?_, ?_, ?_⟩
  · split_ifs <;> rfl
  · split_ifs <;> exact htas
  · intro hall
    have hzero : (((dedupFirst data.recipientEmails).map
        (fun e => (e, decide (e ∉ existing)))).filter (fun r => r.2)).length = 0 := by
      have : ((dedupFirst data.recipientEmails).map
          (fun e => (e, decide (e ∉ existing)))).filter (fun r => r.2) = [] := by
        refine List.filter_eq_nil_iff.mpr ?_
        intro a ha
        rcases List.mem_map.mp ha with ⟨e, he, rfl⟩
        simp [hall e he]
      rw [this]
      rfl
    rw [if_pos hzero]

/-- Witness for C9 at a concrete input: both recipients already exist
for the campaign, so both are recorded as skipped, nothing is enqueued,
and the request fails with the no-dispatches BadRequest. -/
theorem duplicate_dispatch_skipped_witness :
    (createCampaign defaultConfig 0 "camp-1" campaignIds ["a@x.io", "b@x.io"]
      happyPathRequest).results = [("a@x.io", false), ("b@x.io", false)] ∧
    (createCampaign defaultConfig 0 "camp-1" campaignIds ["a@x.io", "b@x.io"]
      happyPathRequest).tasks.map (fun p => p.1.recipientEmail) = [] ∧
    (createCampaign defaultConfig 0 "camp-1" campaignIds ["a@x.io", "b@x.io"]
      happyPathRequest).response =
      .badRequest "Failed to create any email dispatches. All emails may be duplicates." := by
  obtain ⟨w1, w2, w3⟩ := duplicate_dispatch_skipped defaultConfig 0 "camp-1" campaignIds
    ["a@x.io", "b@x.io"] happyPathRequest (by decide) (by decide) (by decide)
  exact ⟨w1, w2, w3 (by decide)⟩

/-- C10: the per-campaign `hourlyLimit` is written to the campaign row
(as `hourlyLimit ?? perSenderCeiling`, with the route's `||`
defaulting) but never reaches the send path: two requests differing
only in `hourlyLimit` produce identical tasks, dispatches and
per-recipient results, and the worker runs — admission check included —
on their corresponding tasks are identical for every counter state and
configuration. -/
theorem hourly_limit_noninterference (cfg : AppConfig) (now : Int) (campaignId : String)
    (ids : Nat → String) (existing : List String) (data : CreateCampaignData)
    (hl1 hl2 : Option Int) (tCheck tDelay tSend : Nat) (loaded : Option String)
    (sendResult : Except String SendInfo) (s : Counters) :
    (createCampaign cfg now campaignId ids existing
        { data with hourlyLimit := hl1 }).tasks =
      (createCampaign cfg now campaignId ids existing
        { data with hourlyLimit := hl2 }).tasks ∧
    (createCampaign cfg now campaignId ids existing
        { data with hourlyLimit := hl1 }).dispatches =
      (createCampaign cfg now campaignId ids existing
        { data with hourlyLimit := hl2 }).dispatches ∧
    (createCampaign cfg now campaignId ids existing
        { data with hourlyLimit := hl1 }).results =
      (createCampaign cfg now campaignId ids existing
        { data with hourlyLimit := hl2 }).results ∧
    ((createCampaign cfg now campaignId ids existing
        { data with hourlyLimit := hl1 }).tasks.map
      (fun p => processEmailDelivery cfg tCheck tDelay tSend loaded sendResult s p.1)) =
      ((createCampaign cfg now campaignId ids existing
        { data with hourlyLimit := hl2 }).tasks.map
      (fun p => processEmailDelivery cfg tCheck tDelay tSend loaded sendResult s p.1)) ∧
    Option.map (fun r => r.hourlyLimit)
        (createCampaign cfg now campaignId ids existing
          { data with hourlyLimit := hl1 }).campaignRow =
      Option.map (fun _ => jsOrInt hl1 cfg.maxEmailsPerHourPerSender)
        (createCampaign cfg now campaignId ids existing
          { data with hourlyLimit := hl1 }).campaignRow := by
  rcases data with ⟨u, subj, bod, rec, st, dbm, hl⟩
  have htasks : (createCampaign cfg now campaignId ids existing
      ⟨u, subj, bod, rec, st, dbm, hl1⟩).tasks =
      (createCampaign cfg now campaignId ids existing
        ⟨u, subj, bod, rec, st, dbm, hl2⟩).tasks := by
    simp only [createCampaign]
    split_ifs <;> rfl
  refine ⟨htasks, ?_, ?_, by rw [htasks], ?_⟩
  · simp only [createCampaign]
    split_ifs <;> rfl
  · simp only [createCampaign]
    split_ifs <;> rfl
  · simp only [createCampaign]
    split_ifs <;> rfl
